import Mathlib

/-
Verification of src/script/validate-data/index.ts: a CI validator that scans
folders of workflow files, validates each sidecar metadata document against a
JSON schema plus an icon-existence check, parses the workflow body and
validates it against a workflow schema, and reports every file whose error
list is non-empty.

The embedding makes all effects explicit: the filesystem and the external
libraries (JSON.parse, js-yaml safeLoad, the jsonschema engine applied to the
workflow schema) are fields of an environment record, each returning
Except String (exceptions are modelled by their stringified form, matching
e.toString() in the source).
-/

set_option autoImplicit false

namespace ValidateData

/-- A JSON value, the runtime shape of what JSON.parse returns. Numbers are
modelled as integers; no claim depends on numeric fine structure. -/
inductive Json where
  | null
  | bool (b : Bool)
  | num (n : Int)
  | str (s : String)
  | arr (elems : List Json)
  | obj (fields : List (String × Json))

/-- JavaScript truthiness of a JSON value (used by the source's guard
`if (properties.iconName && ...)`). -/
def Json.truthy : Json → Bool
  | .null => false
  | .bool b => b
  | .num n => decide (n ≠ 0)
  | .str s => decide (s ≠ "")
  | .arr _ => true
  | .obj _ => true

/-- JavaScript property access `v.name` on a parsed JSON value: a missing
property (and any property of a primitive) is undefined, modelled as none;
reading a property of null throws a TypeError. -/
def jsGetProp (v : Json) (name : String) : Except String (Option Json) :=
  match v with
  | .null => .error ("TypeError: Cannot read properties of null (reading " ++ name ++ ")")
  | .obj fields => .ok (List.lookup name fields)
  | _ => .ok none

/-- One entry of fs.readdir with withFileTypes: a name and whether it is a
regular file. -/
structure DirEntry where
  name : String
  isFile : Bool

/-- The effectful context of the script. Each field models one external
operation the source awaits or calls: an Except.error value is a thrown
exception, carried as its stringified form. validateWorkflowSchema is the
jsonschema engine applied to the require-d workflow-schema.json, an opaque
external collaborator per the spec. -/
structure Env where
  readdir : String → Except String (List DirEntry)
  readFile : String → Except String String
  access : String → Except String Unit
  jsonParse : String → Except String Json
  yamlLoad : String → Except String Json
  validateWorkflowSchema : Json → Except String (List String)

/-- Node path.extname on a bare file name: the substring from the last dot,
empty when there is no dot or when the only dot is the leading character. -/
def extname (name : String) : String :=
  let cs := name.toList
  let ridx := cs.reverse.indexOf '.'
  if ridx = cs.length then ""
  else
    let i := cs.length - 1 - ridx
    if i = 0 then "" else String.mk (cs.drop i)

/-- Node path.basename on a bare file name with an extension argument:
strips the extension when it is a suffix. -/
def basename (name ext : String) : String :=
  if ext.isEmpty then name
  else if name.endsWith ext then name.dropRight ext.length
  else name

/-- Node path.join for the simple two-segment uses in the source. -/
def pathJoin (a b : String) : String := a ++ "/" ++ b

/-- Modelled from the spec: the out-of-scope third-party jsonschema engine
(treated as a black box satisfying the spec contract) checking one property
of propertiesSchema with type string and the given required flag; one error
string per violation, in the engine wording. -/
def checkStringField (fields : List (String × Json)) (name : String) (required : Bool) : List String :=
  match List.lookup name fields with
  | none => if required then ["instance." ++ name ++ " is required"] else []
  | some (Json.str _) => []
  | some _ => ["instance." ++ name ++ " is not of a type(s) string"]

/-- Whether a JSON value is an array whose elements are all strings (first
branch of the categories anyOf in propertiesSchema). -/
def isStringArray : Json → Bool
  | .arr elems => elems.all fun v => match v with | .str _ => true | _ => false
  | _ => false

/-- Whether a JSON value is the explicit null (second branch of the
categories anyOf in propertiesSchema). -/
def Json.isNull : Json → Bool
  | .null => true
  | _ => false

/-- Modelled from the spec: the jsonschema engine checking the categories
property of propertiesSchema, required, with anyOf an array of strings or
null. -/
def checkCategoriesField (fields : List (String × Json)) : List String :=
  match List.lookup "categories" fields with
  | none => ["instance.categories is required"]
  | some v =>
      if v.isNull || isStringArray v then []
      else ["instance.categories is not any of [subschema 0],[subschema 1]"]

/-- Modelled from the spec: the out-of-scope jsonschema engine applied to the
source's propertiesSchema document (required string fields name, description,
iconName; optional string creator; required categories that is an array of
strings or null), producing the stringified violations in property order. -/
def validatePropertiesSchema (json : Json) : List String :=
  match json with
  | .obj fields =>
      checkStringField fields "name" true
        ++ checkStringField fields "description" true
        ++ checkStringField fields "creator" false
        ++ checkStringField fields "iconName" true
        ++ checkCategoriesField fields
  | _ => ["instance is not of a type(s) object"]

/-- JavaScript String.prototype.startsWith, computed on the character
sequences of the two strings. -/
def strStartsWith (s p : String) : Bool := p.data.isPrefixOf s.data

/-- The relative path of the icon resource checked with fs.access. -/
def iconPath (iconName : String) : String := "../../icons/" ++ iconName ++ ".svg"

/-- validateWorkflowProperties from the source: read and JSON.parse the
properties file, validate against propertiesSchema, then, when iconName is
truthy and does not start with octicon, check that the icon file exists and
otherwise append the missing-icon error. Exceptions (read failure, parse
failure, property access on null, startsWith on a non-string) propagate. -/
def validateWorkflowProperties (env : Env) (propertiesPath : String) : Except String (List String) :=
  match env.readFile propertiesPath with
  | .error e => .error e
  | .ok propertiesFileContent =>
      match env.jsonParse propertiesFileContent with
      | .error e => .error e
      | .ok properties =>
          let errors := validatePropertiesSchema properties
          match jsGetProp properties "iconName" with
          | .error e => .error e
          | .ok none => .ok errors
          | .ok (some v) =>
              if v.truthy then
                match v with
                | .str s =>
                    if strStartsWith s "octicon" then .ok errors
                    else
                      match env.access (iconPath s) with
                      | .ok _ => .ok errors
                      | .error _ => .ok (errors ++ ["No icon named " ++ s ++ " found"])
                | _ => .error "TypeError: properties.iconName.startsWith is not a function"
              else .ok errors

/-- A workflow file identified by its path together with its collected error
strings (WorkflowWithErrors in the source). -/
structure WorkflowWithErrors where
  id : String
  errors : List String

/-- The body stage of checkWorkflow as one pipeline: read the workflow file,
parse it with safeLoad, and validate against the workflow schema. Used to
characterise checkWorkflow; the first failing step short-circuits exactly as
the thrown exception does in the source. -/
def bodyErrors (env : Env) (workflowPath : String) : Except String (List String) :=
  match env.readFile workflowPath with
  | .error e => .error e
  | .ok workflowFileContent =>
      match env.yamlLoad workflowFileContent with
      | .error e => .error e
      | .ok workflow => env.validateWorkflowSchema workflow

/-- checkWorkflow from the source: seed the record with the metadata errors,
then read, parse and schema-check the workflow body, appending its
violations; any exception thrown at any step is caught and pushed (as its
string form) onto whatever errors were already assigned to the record. -/
def checkWorkflow (env : Env) (workflowPath propertiesPath : String) : WorkflowWithErrors :=
  match validateWorkflowProperties env propertiesPath with
  | .error e => { id := workflowPath, errors := [e] }
  | .ok metaErrors =>
      match env.readFile workflowPath with
      | .error e => { id := workflowPath, errors := metaErrors ++ [e] }
      | .ok workflowFileContent =>
          match env.yamlLoad workflowFileContent with
          | .error e => { id := workflowPath, errors := metaErrors ++ [e] }
          | .ok workflow =>
              match env.validateWorkflowSchema workflow with
              | .error e => { id := workflowPath, errors := metaErrors ++ [e] }
              | .ok workflowValidationErrors =>
                  { id := workflowPath, errors := metaErrors ++ workflowValidationErrors }

/-- The body of the inner loop of checkWorkflows for one directory entry:
derive the file type and the two paths and run checkWorkflow. -/
def entryRecord (env : Env) (folder : String) (e : DirEntry) : WorkflowWithErrors :=
  let fileType := basename e.name (extname e.name)
  let workflowFilePath := pathJoin folder e.name
  let propertiesFilePath := pathJoin (pathJoin folder "properties") (fileType ++ ".properties.json")
  checkWorkflow env workflowFilePath propertiesFilePath

/-- The inner for-loop of checkWorkflows over one folder's directory listing:
skip non-files, validate each file, and push the record only when its error
list is non-empty. -/
def processEntries (env : Env) (folder : String) : List DirEntry → List WorkflowWithErrors
  | [] => []
  | e :: rest =>
      if e.isFile then
        let errs := entryRecord env folder e
        if errs.errors.length > 0 then errs :: processEntries env folder rest
        else processEntries env folder rest
      else processEntries env folder rest

/-- checkWorkflows from the source: for each folder in order, await readdir
(a thrown listing failure propagates, aborting the scan) and collect the
errored records of its entries in listing order. -/
def checkWorkflows (env : Env) : List String → Except String (List WorkflowWithErrors)
  | [] => .ok []
  | folder :: rest =>
      match env.readdir folder with
      | .error e => .error e
      | .ok dir =>
          match checkWorkflows env rest with
          | .error e => .error e
          | .ok tail => .ok (processEntries env folder dir ++ tail)

/-- Follows the spec's words (for comparison with checkWorkflows): the full
sequence of WorkflowRecords in discovery order, folder order then
directory-listing order within a folder, one record per regular file, with no
filtering. -/
def discoveryRecords (env : Env) : List String → Except String (List WorkflowWithErrors)
  | [] => .ok []
  | folder :: rest =>
      match env.readdir folder with
      | .error e => .error e
      | .ok dir =>
          match discoveryRecords env rest with
          | .error e => .error e
          | .ok tail => .ok ((dir.filter fun e => e.isFile).map (entryRecord env folder) ++ tail)

/-- The driver from the source, reduced to its observable failure state:
true when setFailed is called, either because errored workflows were found or
because an exception escaped the scan and was caught at top level. -/
def main (env : Env) (folders : List String) : Bool :=
  match checkWorkflows env folders with
  | .error _ => true
  | .ok erroredWorkflows => decide (erroredWorkflows.length > 0)

/-- Whether an error string is a schema violation reported against the
categories property (all such engine messages start with the instance path
of the property). -/
def isCategoriesViolation (e : String) : Bool := strStartsWith e "instance.categories"

/-! ## Concrete environments used to witness the theorems -/

/-- A metadata document satisfying propertiesSchema, with a built-in icon. -/
def goodDoc : Json :=
  Json.obj [("name", Json.str "A workflow"), ("description", Json.str "demo"),
    ("iconName", Json.str "octicon-check"), ("categories", Json.null)]

/-- A benign environment: every operation succeeds, the metadata document is
goodDoc, and both schema checks pass. -/
def envBase : Env where
  readdir := fun _ => .ok []
  readFile := fun _ => .ok "file-content"
  access := fun _ => .ok ()
  jsonParse := fun _ => .ok goodDoc
  yamlLoad := fun _ => .ok (Json.obj [])
  validateWorkflowSchema := fun _ => .ok []

/-- An environment where every file read throws ENOENT. -/
def envReadFail : Env :=
  { envBase with readFile := fun _ => .error "Error: ENOENT" }

/-- An environment where the workflow body fails to parse while the metadata
pipeline succeeds with no errors. -/
def envBodyParseFail : Env :=
  { envBase with
      readFile := fun p => if p = "wf.yml" then .ok "workflow-body" else .ok "props-content",
      yamlLoad := fun _ => .error "YAMLException: bad indentation" }

/-- A metadata document with a custom (non-octicon) icon name. -/
def customIconDoc : Json :=
  Json.obj [("name", Json.str "A workflow"), ("description", Json.str "demo"),
    ("iconName", Json.str "my-icon"), ("categories", Json.null)]

/-- An environment where the metadata names a custom icon and the icon file
is absent (fs.access throws). -/
def envIconMissing : Env :=
  { envBase with jsonParse := fun _ => .ok customIconDoc,
                 access := fun _ => .error "Error: ENOENT" }

/-- An environment where the metadata names a built-in octicon and no icon
file exists on disk. -/
def envBuiltinIconMissing : Env :=
  { envBase with access := fun _ => .error "Error: ENOENT" }

/-- A metadata document whose iconName is present but the empty string. -/
def emptyIconDoc : Json :=
  Json.obj [("name", Json.str "A workflow"), ("description", Json.str "demo"),
    ("iconName", Json.str ""), ("categories", Json.null)]

/-- An environment where the metadata has an empty-string iconName and no
icon file exists on disk. -/
def envEmptyIcon : Env :=
  { envBase with jsonParse := fun _ => .ok emptyIconDoc,
                 access := fun _ => .error "Error: ENOENT" }

/-- A metadata document that lacks the required name field and carries a
numeric (truthy, non-string) iconName. -/
def numIconDoc : Json := Json.obj [("iconName", Json.num 5)]

/-- An environment where the metadata parses to numIconDoc. -/
def envNumIcon : Env :=
  { envBase with jsonParse := fun _ => .ok numIconDoc }

/-- A metadata document that lacks the required name field but whose
iconName is a well-behaved string. -/
def missingNameDoc : Json :=
  Json.obj [("description", Json.str "demo"), ("iconName", Json.str "octicon-check"),
    ("categories", Json.null)]

/-- An environment where the metadata parses to missingNameDoc. -/
def envMissingName : Env :=
  { envBase with jsonParse := fun _ => .ok missingNameDoc }

/-- An environment where listing the folder bad throws EACCES and every
other folder lists as empty. -/
def envDirFail : Env :=
  { envBase with readdir := fun f => if f = "bad" then .error "Error: EACCES" else .ok [] }

/-! ## Claim theorems -/

/-- C1: for every environment and every pair of paths, checkWorkflow returns
a WorkflowRecord (it never throws: its type is total, with no error outcome)
whose id is the given workflow path, and whose error list is exactly the
single stringified exception when metadata validation throws, and otherwise
the metadata errors followed by either the body-stage results or the single
stringified body-stage exception: every failure of metadata validation, body
parsing or body schema validation ends up as strings in the list. -/
theorem checkWorkflow_never_throws (env : Env) (workflowPath propertiesPath : String) :
    (checkWorkflow env workflowPath propertiesPath).id = workflowPath ∧
    (checkWorkflow env workflowPath propertiesPath).errors =
      (match validateWorkflowProperties env propertiesPath with
       | .error e => [e]
       | .ok metaErrors =>
           match bodyErrors env workflowPath with
           | .error e => metaErrors ++ [e]
           | .ok workflowValidationErrors => metaErrors ++ workflowValidationErrors) := by
  cases hv : validateWorkflowProperties env propertiesPath with
  | error e => simp [checkWorkflow, hv]
  | ok m =>
    cases hr : env.readFile workflowPath with
    | error e => simp [checkWorkflow, bodyErrors, hv, hr]
    | ok c =>
      cases hy : env.yamlLoad c with
      | error e => simp [checkWorkflow, bodyErrors, hv, hr, hy]
      | ok w =>
        cases hw : env.validateWorkflowSchema w with
        | error e => simp [checkWorkflow, bodyErrors, hv, hr, hy, hw]
        | ok ws => simp [checkWorkflow, bodyErrors, hv, hr, hy, hw]

/-- The inner loop keeps, in order, exactly the errored records of the file
entries. -/
theorem processEntries_eq_filter (env : Env) (folder : String) (entries : List DirEntry) :
    processEntries env folder entries =
      ((entries.filter fun e => e.isFile).map (entryRecord env folder)).filter
        fun r => decide (r.errors.length > 0) := by
  induction entries with
  | nil => rfl
  | cons e rest ih =>
    by_cases hf : e.isFile
    · by_cases he : (entryRecord env folder e).errors.length > 0
      · simp [processEntries, hf, he, List.filter, ih]
      · simp [processEntries, hf, he, List.filter, ih]
    · simp [processEntries, hf, List.filter, ih]

/-- C2: for every environment and folder sequence, checkWorkflows is exactly
the discovery-order record sequence (folder order, then directory-listing
order within a folder) filtered down to the records with a non-empty error
list; error-free records are dropped and a listing failure propagates on both
sides. -/
theorem checkWorkflows_eq_filter_discovery (env : Env) (folders : List String) :
    checkWorkflows env folders =
      Except.map (fun records => records.filter fun r => decide (r.errors.length > 0))
        (discoveryRecords env folders) := by
  induction folders with
  | nil => rfl
  | cons folder rest ih =>
    cases hd : env.readdir folder with
    | error e => simp [checkWorkflows, discoveryRecords, hd, Except.map]
    | ok dir =>
      cases ht : discoveryRecords env rest with
      | error e =>
        rw [ht] at ih
        simp [checkWorkflows, discoveryRecords, hd, ht, ih, Except.map]
      | ok tail =>
        rw [ht] at ih
        simp [checkWorkflows, discoveryRecords, hd, ht, ih, Except.map,
          processEntries_eq_filter, List.filter_append]

/-- C3: for every environment and paths, if loading or parsing the metadata
document throws (read failure, or read success followed by a JSON.parse
failure), the record returned by checkWorkflow carries exactly one error, the
stringified exception, as the sole entry of its final list. -/
theorem checkWorkflow_metaFail_single_error (env : Env) (workflowPath propertiesPath e : String)
    (h : env.readFile propertiesPath = .error e ∨
      ∃ c, env.readFile propertiesPath = .ok c ∧ env.jsonParse c = .error e) :
    checkWorkflow env workflowPath propertiesPath = { id := workflowPath, errors := [e] } := by
  rcases h with h | ⟨c, h1, h2⟩
  · simp [checkWorkflow, validateWorkflowProperties, h]
  · simp [checkWorkflow, validateWorkflowProperties, h1, h2]

/-- Witness for C3 at a concrete environment whose metadata read throws. -/
theorem checkWorkflow_metaFail_single_error_witness :
    (envReadFail.readFile "props/p.properties.json" = Except.error "Error: ENOENT" ∨
      ∃ c, envReadFail.readFile "props/p.properties.json" = Except.ok c ∧
        envReadFail.jsonParse c = Except.error "Error: ENOENT") ∧
    checkWorkflow envReadFail "wf.yml" "props/p.properties.json" =
      { id := "wf.yml", errors := ["Error: ENOENT"] } :=
  ⟨Or.inl rfl,
    checkWorkflow_metaFail_single_error envReadFail "wf.yml" "props/p.properties.json"
      "Error: ENOENT" (Or.inl rfl)⟩

/-- C4: for every environment and paths, if metadata validation completed
normally and the workflow body read succeeded but the YAML loader throws,
checkWorkflow returns (it does not throw) the metadata errors followed by
exactly one additional error, the stringified parse exception. -/
theorem checkWorkflow_bodyParseFail (env : Env) (workflowPath propertiesPath c e : String)
    (metaErrors : List String)
    (h1 : validateWorkflowProperties env propertiesPath = .ok metaErrors)
    (h2 : env.readFile workflowPath = .ok c)
    (h3 : env.yamlLoad c = .error e) :
    checkWorkflow env workflowPath propertiesPath =
      { id := workflowPath, errors := metaErrors ++ [e] } := by
  simp [checkWorkflow, h1, h2, h3]

/-- Witness for C4 at a concrete environment with clean metadata and an
unparsable workflow body. -/
theorem checkWorkflow_bodyParseFail_witness :
    validateWorkflowProperties envBodyParseFail "p.properties.json" = Except.ok [] ∧
    envBodyParseFail.readFile "wf.yml" = Except.ok "workflow-body" ∧
    envBodyParseFail.yamlLoad "workflow-body" = Except.error "YAMLException: bad indentation" ∧
    checkWorkflow envBodyParseFail "wf.yml" "p.properties.json" =
      { id := "wf.yml", errors := [] ++ ["YAMLException: bad indentation"] } :=
  ⟨rfl, rfl, rfl,
    checkWorkflow_bodyParseFail envBodyParseFail "wf.yml" "p.properties.json"
      "workflow-body" "YAMLException: bad indentation" [] rfl rfl rfl⟩

/-! ## Helper lemmas on the shape of error strings -/

/-- Every engine message built from an instance path starts with the
character i. -/
theorem head_instanceDot (a b : String) : ("instance." ++ a ++ b).data.head? = some 'i' := by
  rw [String.data_append, String.data_append]
  rfl

/-- The missing-icon message starts with the character N. -/
theorem head_noIcon (s : String) : ("No icon named " ++ s ++ " found").data.head? = some 'N' := by
  rw [String.data_append, String.data_append]
  rfl

/-- Every message produced by a string-property check starts with i. -/
theorem checkStringField_head (fields : List (String × Json)) (f : String) (req : Bool) :
    ∀ e ∈ checkStringField fields f req, e.data.head? = some 'i' := by
  intro e he
  unfold checkStringField at he
  rcases h : List.lookup f fields with _ | v
  · rw [h] at he
    cases req with
    | false => simp at he
    | true =>
        simp at he
        subst he
        exact head_instanceDot f " is required"
  · rw [h] at he
    cases v <;> simp at he <;>
      (subst he; exact head_instanceDot f " is not of a type(s) string")

/-- Every message produced by the categories check starts with i. -/
theorem checkCategoriesField_head (fields : List (String × Json)) :
    ∀ e ∈ checkCategoriesField fields, e.data.head? = some 'i' := by
  intro e he
  unfold checkCategoriesField at he
  rcases h : List.lookup "categories" fields with _ | v
  · rw [h] at he
    simp at he
    subst he
    rfl
  · rw [h] at he
    by_cases hc : (v.isNull || isStringArray v) = true
    · simp [hc] at he
    · simp [hc] at he
      subst he
      rfl

/-- Every message produced by the propertiesSchema validation starts with
the character i. -/
theorem validatePropertiesSchema_head (j : Json) :
    ∀ e ∈ validatePropertiesSchema j, e.data.head? = some 'i' := by
  intro e he
  cases j with
  | obj fields =>
      simp only [validatePropertiesSchema, List.mem_append] at he
      rcases he with ((((h | h) | h) | h) | h)
      · exact checkStringField_head fields "name" true e h
      · exact checkStringField_head fields "description" true e h
      · exact checkStringField_head fields "creator" false e h
      · exact checkStringField_head fields "iconName" true e h
      · exact checkCategoriesField_head fields e h
  | null => simp [validatePropertiesSchema] at he; subst he; rfl
  | bool b => simp [validatePropertiesSchema] at he; subst he; rfl
  | num n => simp [validatePropertiesSchema] at he; subst he; rfl
  | str s => simp [validatePropertiesSchema] at he; subst he; rfl
  | arr elems => simp [validatePropertiesSchema] at he; subst he; rfl

/-- The missing-icon message is never among the propertiesSchema violations,
whatever the icon name and the document. -/
theorem noIcon_not_mem_schema (s : String) (j : Json) :
    ("No icon named " ++ s ++ " found") ∉ validatePropertiesSchema j := by
  intro hmem
  have h1 := validatePropertiesSchema_head j _ hmem
  rw [head_noIcon] at h1
  exact absurd (Option.some.inj h1) (by decide)

/-- A string starting with octicon is non-empty. -/
theorem ne_empty_of_octicon (s : String) (h : strStartsWith s "octicon" = true) : s ≠ "" := by
  intro hs
  subst hs
  exact absurd h (by decide)

/-- C5: for every environment whose metadata pipeline yields a document with
a truthy iconName string that does not start with octicon, the Metadata
Validator's result includes the error naming that icon exactly when the
fs.access check of the icon file throws; when the icon file exists, no such
error is present in the result. -/
theorem validateWorkflowProperties_icon_existence (env : Env)
    (propertiesPath c s : String) (fields : List (String × Json))
    (h1 : env.readFile propertiesPath = .ok c)
    (h2 : env.jsonParse c = .ok (Json.obj fields))
    (h3 : List.lookup "iconName" fields = some (Json.str s))
    (h4 : s ≠ "")
    (h5 : strStartsWith s "octicon" = false) :
    ((∃ err, env.access (iconPath s) = .error err) →
      ∃ errs, validateWorkflowProperties env propertiesPath = .ok errs ∧
        ("No icon named " ++ s ++ " found") ∈ errs) ∧
    (env.access (iconPath s) = .ok () →
      ∃ errs, validateWorkflowProperties env propertiesPath = .ok errs ∧
        ("No icon named " ++ s ++ " found") ∉ errs) := by
  constructor
  · rintro ⟨err, ha⟩
    refine ⟨validatePropertiesSchema (Json.obj fields) ++ ["No icon named " ++ s ++ " found"],
      ?_, by simp⟩
    simp [validateWorkflowProperties, h1, h2, jsGetProp, h3, Json.truthy, h4, h5, ha]
  · intro ha
    refine ⟨validatePropertiesSchema (Json.obj fields), ?_, noIcon_not_mem_schema s _⟩
    simp [validateWorkflowProperties, h1, h2, jsGetProp, h3, Json.truthy, h4, h5, ha]

/-- Witness for C5 at a concrete environment naming a missing custom icon. -/
theorem validateWorkflowProperties_icon_existence_witness :
    ((∃ err, envIconMissing.access (iconPath "my-icon") = Except.error err) →
      ∃ errs, validateWorkflowProperties envIconMissing "p.properties.json" = Except.ok errs ∧
        ("No icon named " ++ "my-icon" ++ " found") ∈ errs) ∧
    (envIconMissing.access (iconPath "my-icon") = Except.ok () →
      ∃ errs, validateWorkflowProperties envIconMissing "p.properties.json" = Except.ok errs ∧
        ("No icon named " ++ "my-icon" ++ " found") ∉ errs) :=
  validateWorkflowProperties_icon_existence envIconMissing "p.properties.json" "file-content"
    "my-icon" [("name", Json.str "A workflow"), ("description", Json.str "demo"),
      ("iconName", Json.str "my-icon"), ("categories", Json.null)]
    rfl rfl rfl (by decide) rfl

/-- C6: for every environment whose metadata pipeline yields a document
whose iconName starts with octicon, the Metadata Validator returns exactly
the schema violations whatever the fs.access behaviour (the existence check
is skipped), and no missing-icon error of any name is in the result. -/
theorem validateWorkflowProperties_octicon_skips_check (env : Env)
    (propertiesPath c s : String) (fields : List (String × Json))
    (h1 : env.readFile propertiesPath = .ok c)
    (h2 : env.jsonParse c = .ok (Json.obj fields))
    (h3 : List.lookup "iconName" fields = some (Json.str s))
    (h4 : strStartsWith s "octicon" = true) :
    validateWorkflowProperties env propertiesPath =
      .ok (validatePropertiesSchema (Json.obj fields)) ∧
    ∀ t, ("No icon named " ++ t ++ " found") ∉ validatePropertiesSchema (Json.obj fields) := by
  refine ⟨?_, fun t => noIcon_not_mem_schema t _⟩
  simp [validateWorkflowProperties, h1, h2, jsGetProp, h3, Json.truthy,
    ne_empty_of_octicon s h4, h4]

/-- Witness for C6 at a concrete environment with a built-in icon name and
no icon file on disk. -/
theorem validateWorkflowProperties_octicon_skips_check_witness :
    validateWorkflowProperties envBuiltinIconMissing "p.properties.json" =
      Except.ok (validatePropertiesSchema (Json.obj [("name", Json.str "A workflow"),
        ("description", Json.str "demo"), ("iconName", Json.str "octicon-check"),
        ("categories", Json.null)])) ∧
    ∀ t, ("No icon named " ++ t ++ " found") ∉ validatePropertiesSchema
      (Json.obj [("name", Json.str "A workflow"), ("description", Json.str "demo"),
        ("iconName", Json.str "octicon-check"), ("categories", Json.null)]) :=
  validateWorkflowProperties_octicon_skips_check envBuiltinIconMissing "p.properties.json"
    "file-content" "octicon-check"
    [("name", Json.str "A workflow"), ("description", Json.str "demo"),
      ("iconName", Json.str "octicon-check"), ("categories", Json.null)]
    rfl rfl rfl rfl

/-- C10: for every environment whose metadata pipeline yields a document
whose iconName is present but falsy (the empty string, false, zero or null),
the truthiness guard skips the icon-existence check entirely: the Metadata
Validator returns exactly the schema violations whatever fs.access does, and
no missing-icon error of any name is in the result. -/
theorem validateWorkflowProperties_falsy_icon_skips_check (env : Env)
    (propertiesPath c : String) (fields : List (String × Json)) (v : Json)
    (h1 : env.readFile propertiesPath = .ok c)
    (h2 : env.jsonParse c = .ok (Json.obj fields))
    (h3 : List.lookup "iconName" fields = some v)
    (h4 : v.truthy = false) :
    validateWorkflowProperties env propertiesPath =
      .ok (validatePropertiesSchema (Json.obj fields)) ∧
    ∀ t, ("No icon named " ++ t ++ " found") ∉ validatePropertiesSchema (Json.obj fields) := by
  refine ⟨?_, fun t => noIcon_not_mem_schema t _⟩
  simp [validateWorkflowProperties, h1, h2, jsGetProp, h3, h4]

/-- Witness for C10 at a concrete environment whose metadata has an
empty-string iconName and no icon file on disk. -/
theorem validateWorkflowProperties_falsy_icon_skips_check_witness :
    validateWorkflowProperties envEmptyIcon "p.properties.json" =
      Except.ok (validatePropertiesSchema (Json.obj [("name", Json.str "A workflow"),
        ("description", Json.str "demo"), ("iconName", Json.str ""),
        ("categories", Json.null)])) ∧
    ∀ t, ("No icon named " ++ t ++ " found") ∉ validatePropertiesSchema
      (Json.obj [("name", Json.str "A workflow"), ("description", Json.str "demo"),
        ("iconName", Json.str ""), ("categories", Json.null)]) :=
  validateWorkflowProperties_falsy_icon_skips_check envEmptyIcon "p.properties.json"
    "file-content"
    [("name", Json.str "A workflow"), ("description", Json.str "demo"),
      ("iconName", Json.str ""), ("categories", Json.null)]
    (Json.str "") rfl rfl rfl rfl

/-- A document missing one of the three required string fields carries the
corresponding required violation among its propertiesSchema errors. -/
theorem required_mem_schema (fields : List (String × Json)) (f : String)
    (hf : f = "name" ∨ f = "description" ∨ f = "iconName")
    (hmiss : List.lookup f fields = none) :
    ("instance." ++ f ++ " is required") ∈ validatePropertiesSchema (Json.obj fields) := by
  rcases hf with rfl | rfl | rfl <;>
    simp [validatePropertiesSchema, checkStringField, hmiss, List.mem_append]

/-- When the iconName field is absent, falsy, or a string, the Metadata
Validator cannot throw after the schema step: it returns the schema
violations followed by at most the missing-icon error. -/
theorem validateWorkflowProperties_ok_of_icon_safe (env : Env)
    (propertiesPath c : String) (fields : List (String × Json))
    (h1 : env.readFile propertiesPath = .ok c)
    (h2 : env.jsonParse c = .ok (Json.obj fields))
    (hicon : List.lookup "iconName" fields = none ∨
      ∃ v, List.lookup "iconName" fields = some v ∧
        (v.truthy = false ∨ ∃ s, v = Json.str s)) :
    ∃ extra, validateWorkflowProperties env propertiesPath =
      .ok (validatePropertiesSchema (Json.obj fields) ++ extra) := by
  rcases hicon with h | ⟨v, hv, hcase⟩
  · exact ⟨[], by simp [validateWorkflowProperties, h1, h2, jsGetProp, h]⟩
  · rcases hcase with htruthy | ⟨s, rfl⟩
    · exact ⟨[], by simp [validateWorkflowProperties, h1, h2, jsGetProp, hv, htruthy]⟩
    · by_cases hs : s = ""
      · subst hs
        exact ⟨[], by simp [validateWorkflowProperties, h1, h2, jsGetProp, hv, Json.truthy]⟩
      · by_cases hoct : strStartsWith s "octicon" = true
        · exact ⟨[], by simp [validateWorkflowProperties, h1, h2, jsGetProp, hv,
            Json.truthy, hs, hoct]⟩
        · rw [Bool.not_eq_true] at hoct
          cases ha : env.access (iconPath s) with
          | ok u =>
              exact ⟨[], by simp [validateWorkflowProperties, h1, h2, jsGetProp, hv,
                Json.truthy, hs, hoct, ha]⟩
          | error err =>
              exact ⟨["No icon named " ++ s ++ " found"],
                by simp [validateWorkflowProperties, h1, h2, jsGetProp, hv,
                  Json.truthy, hs, hoct, ha]⟩

/-- Counterexample to C7 as stated: the document of envNumIcon parses
successfully and lacks the required name field, yet the Metadata Validator
does not return an error list at all: the truthy non-string iconName makes
the startsWith call throw a TypeError, which escapes validateWorkflowProperties. -/
theorem validateWorkflowProperties_missing_required_cex :
    envNumIcon.readFile "p.properties.json" = Except.ok "file-content" ∧
    envNumIcon.jsonParse "file-content" = Except.ok (Json.obj [("iconName", Json.num 5)]) ∧
    List.lookup "name" [("iconName", Json.num 5)] = none ∧
    validateWorkflowProperties envNumIcon "p.properties.json" =
      Except.error "TypeError: properties.iconName.startsWith is not a function" ∧
    ∀ errs : List String,
      validateWorkflowProperties envNumIcon "p.properties.json" ≠ Except.ok errs := by
  refine ⟨rfl, rfl, rfl, rfl, ?_⟩
  intro errs h
  rw [show validateWorkflowProperties envNumIcon "p.properties.json" =
    Except.error "TypeError: properties.iconName.startsWith is not a function" from rfl] at h
  exact Except.noConfusion h

/-- C7 as amended: for every environment whose metadata pipeline yields a
document lacking one of the required fields name, description or iconName,
and whose iconName field is absent, falsy, or a string (so that the icon
guard cannot throw), the Metadata Validator returns a non-empty error list
containing the required-field violation for the missing field. -/
theorem validateWorkflowProperties_missing_required (env : Env)
    (propertiesPath c f : String) (fields : List (String × Json))
    (h1 : env.readFile propertiesPath = .ok c)
    (h2 : env.jsonParse c = .ok (Json.obj fields))
    (hf : f = "name" ∨ f = "description" ∨ f = "iconName")
    (hmiss : List.lookup f fields = none)
    (hicon : List.lookup "iconName" fields = none ∨
      ∃ v, List.lookup "iconName" fields = some v ∧
        (v.truthy = false ∨ ∃ s, v = Json.str s)) :
    ∃ errs, validateWorkflowProperties env propertiesPath = .ok errs ∧
      ("instance." ++ f ++ " is required") ∈ errs ∧ errs ≠ [] := by
  obtain ⟨extra, hok⟩ :=
    validateWorkflowProperties_ok_of_icon_safe env propertiesPath c fields h1 h2 hicon
  have hmem : ("instance." ++ f ++ " is required") ∈
      validatePropertiesSchema (Json.obj fields) ++ extra :=
    List.mem_append_left extra (required_mem_schema fields f hf hmiss)
  exact ⟨_, hok, hmem, List.ne_nil_of_mem hmem⟩

/-- Witness for the amended C7 at a concrete environment whose metadata
lacks the name field. -/
theorem validateWorkflowProperties_missing_required_witness :
    ∃ errs, validateWorkflowProperties envMissingName "p.properties.json" = Except.ok errs ∧
      ("instance." ++ "name" ++ " is required") ∈ errs ∧ errs ≠ [] :=
  validateWorkflowProperties_missing_required envMissingName "p.properties.json"
    "file-content" "name"
    [("description", Json.str "demo"), ("iconName", Json.str "octicon-check"),
      ("categories", Json.null)]
    rfl rfl (Or.inl rfl) rfl
    (Or.inr ⟨Json.str "octicon-check", rfl, Or.inr ⟨"octicon-check", rfl⟩⟩)

/-- No message of a string-property check is reported against categories. -/
theorem checkStringField_not_categories (fields : List (String × Json)) (f : String)
    (req : Bool) (hf : f = "name" ∨ f = "description" ∨ f = "creator" ∨ f = "iconName") :
    ∀ e ∈ checkStringField fields f req, isCategoriesViolation e = false := by
  intro e he
  unfold checkStringField at he
  rcases h : List.lookup f fields with _ | v
  · rw [h] at he
    cases req with
    | false => simp at he
    | true =>
        simp at he
        subst he
        rcases hf with rfl | rfl | rfl | rfl <;> decide
  · rw [h] at he
    cases v <;> simp at he <;>
      (subst he; rcases hf with rfl | rfl | rfl | rfl <;> decide)

/-- C8: for every document carrying a categories field, a value that is an
array of strings or explicit null yields no schema violation against
categories, while any other value yields one. -/
theorem categories_anyOf (fields : List (String × Json)) (v : Json)
    (hv : List.lookup "categories" fields = some v) :
    ((v.isNull || isStringArray v) = true →
      ∀ e ∈ validatePropertiesSchema (Json.obj fields), isCategoriesViolation e = false) ∧
    ((v.isNull || isStringArray v) = false →
      ∃ e ∈ validatePropertiesSchema (Json.obj fields), isCategoriesViolation e = true) := by
  constructor
  · intro hc e he
    simp only [validatePropertiesSchema, List.mem_append] at he
    rcases he with ((((h | h) | h) | h) | h)
    · exact checkStringField_not_categories fields "name" true (Or.inl rfl) e h
    · exact checkStringField_not_categories fields "description" true
        (Or.inr (Or.inl rfl)) e h
    · exact checkStringField_not_categories fields "creator" false
        (Or.inr (Or.inr (Or.inl rfl))) e h
    · exact checkStringField_not_categories fields "iconName" true
        (Or.inr (Or.inr (Or.inr rfl))) e h
    · rw [show checkCategoriesField fields = [] by simp [checkCategoriesField, hv, hc]] at h
      simp at h
  · intro hc
    refine ⟨"instance.categories is not any of [subschema 0],[subschema 1]", ?_, by decide⟩
    simp [validatePropertiesSchema, checkCategoriesField, hv, hc, List.mem_append]

/-- Witness for C8 at a concrete document whose categories value is a
number. -/
theorem categories_anyOf_witness :
    (((Json.num 3).isNull || isStringArray (Json.num 3)) = true →
      ∀ e ∈ validatePropertiesSchema (Json.obj [("name", Json.str "n"),
        ("description", Json.str "d"), ("iconName", Json.str "octicon-x"),
        ("categories", Json.num 3)]), isCategoriesViolation e = false) ∧
    (((Json.num 3).isNull || isStringArray (Json.num 3)) = false →
      ∃ e ∈ validatePropertiesSchema (Json.obj [("name", Json.str "n"),
        ("description", Json.str "d"), ("iconName", Json.str "octicon-x"),
        ("categories", Json.num 3)]), isCategoriesViolation e = true) :=
  categories_anyOf
    [("name", Json.str "n"), ("description", Json.str "d"),
      ("iconName", Json.str "octicon-x"), ("categories", Json.num 3)]
    (Json.num 3) rfl

/-- A readdir failure on any configured folder surfaces as a failure of the
whole scan. -/
theorem checkWorkflows_error_of_readdir_error (env : Env) (folders : List String)
    (h : ∃ f ∈ folders, ∃ e, env.readdir f = .error e) :
    ∃ e, checkWorkflows env folders = .error e := by
  induction folders with
  | nil =>
      obtain ⟨f, hf, _⟩ := h
      simp at hf
  | cons folder rest ih =>
      obtain ⟨f, hf, e, he⟩ := h
      cases hd : env.readdir folder with
      | error e2 => exact ⟨e2, by simp [checkWorkflows, hd]⟩
      | ok dir =>
          rcases List.mem_cons.mp hf with rfl | hf2
          · rw [hd] at he
            exact Except.noConfusion he
          · obtain ⟨e3, h3⟩ := ih ⟨f, hf2, e, he⟩
            exact ⟨e3, by simp [checkWorkflows, hd, h3]⟩

/-- C9: for every environment and folder sequence, if listing some folder of
the sequence throws, the exception is not recovered per folder: the whole
scan returns a failure, and the driver, catching it only at top level, marks
the process failed. -/
theorem readdir_failure_aborts_scan (env : Env) (folders : List String)
    (h : ∃ f ∈ folders, ∃ e, env.readdir f = .error e) :
    (∃ e, checkWorkflows env folders = .error e) ∧ main env folders = true := by
  obtain ⟨e, he⟩ := checkWorkflows_error_of_readdir_error env folders h
  exact ⟨⟨e, he⟩, by simp [main, he]⟩

/-- Witness for C9 at a concrete environment where listing the folder bad
throws EACCES. -/
theorem readdir_failure_aborts_scan_witness :
    (∃ e, checkWorkflows envDirFail ["good", "bad"] = Except.error e) ∧
    main envDirFail ["good", "bad"] = true :=
  readdir_failure_aborts_scan envDirFail ["good", "bad"]
    ⟨"bad", by simp, "Error: EACCES", rfl⟩

end ValidateData
